import Mathlib

/-!
Verification development for the Corsair logo-GIF generator
(`bin/generate-logo-gif.py`).

The script is embedded shallowly: pure Lean functions mirror the Python
functions (`compute_layout`, `draw_flag`, `render_frame`, `generate_frames`
and the palette-conversion / encoding steps of `main`).  Bitmap drawing is
modelled as the ordered list of drawing commands issued to the drawing
surface (`DrawOp`): together with the canvas dimensions this determines the
rendered bitmap, since the external drawing library is deterministic.
Machine integers are `Int`/`Nat` (Python integers are unbounded, so no
overflow modelling is needed).  Python `//` is `Int.fdiv` (floor division).

The label `MAIN_TEXT` is a module-level constant in the script; here the
functions take the label as an explicit parameter (every occurrence of the
global `MAIN_TEXT` becomes the parameter), so that boundary cases over the
label can be stated.  The concrete run uses `MAIN_TEXT = "corsair"`.
-/

/-- An RGB color triple, as used by the script's palette constants. -/
structure RGB where
  r : Nat
  g : Nat
  b : Nat
deriving DecidableEq

def BG : RGB := ⟨0x0A, 0x0E, 0x17⟩

def PARCHMENT : RGB := ⟨0xE2, 0xDF, 0xD6⟩

def GOLD : RGB := ⟨0xD4, 0xA8, 0x53⟩

def GOLD_HI : RGB := ⟨0xF5, 0xC5, 0x42⟩

def GOLD_DIM : RGB := ⟨0x8A, 0x6E, 0x35⟩

def FLAG_BG : RGB := ⟨0x12, 0x16, 0x22⟩

def SURFACE : RGB := ⟨0x11, 0x18, 0x33⟩

def MAIN_TEXT : String := "corsair"

/-- Decode one row of the skull grid: `G` is a gold cell, `.` is the
transparent `_ = None` cell of the Python grid literal. -/
def gridRow (s : String) : List Bool := s.toList.map (fun c => c == 'G')

/-- `SKULL_GRID`: the 18x18 skull-and-crossbones grid from the script,
row by row (`G` = gold cell, `.` = `None`). -/
def SKULL_GRID : List (List Bool) :=
  [gridRow "......GGGGGG......",
   gridRow ".....GGGGGGGG.....",
   gridRow "....GGGGGGGGGG....",
   gridRow "....GGGGGGGGGG....",
   gridRow "....GG..GG..GG....",
   gridRow "....GG..GG..GG....",
   gridRow ".....GGG..GGG.....",
   gridRow "......GGGGGG......",
   gridRow ".......GGGG.......",
   gridRow "......G.GG.G......",
   gridRow ".......GGGG.......",
   gridRow ".G......GG......G.",
   gridRow "..GG..........GG..",
   gridRow "...GGG......GGG...",
   gridRow ".....GGGGGGGG.....",
   gridRow "...GGG......GGG...",
   gridRow "..GG..........GG..",
   gridRow ".G..............G."]

def SKULL_SIZE : Nat := 18

def SKULL_PX : Nat := 5

def FLAG_W : Int := (SKULL_SIZE * SKULL_PX : Nat) + 20

def FLAG_H : Int := (SKULL_SIZE * SKULL_PX : Nat) + 20

def GAP : Int := 24

/-- A font bounding box as returned by `font.getbbox` — `(x0, y0, x1, y1)`. -/
structure BBox where
  x0 : Int
  y0 : Int
  x1 : Int
  y1 : Int
deriving DecidableEq

/-- The external font-metrics collaborator: `getbbox` on a string of
characters.  `render_frame` applies it to single characters, and
`compute_layout` to the whole label. -/
def FontMetrics : Type := List Char → BBox

/-- The `Layout` dictionary computed by `compute_layout`. -/
structure Layout where
  width : Int
  height : Int
  flag_x : Int
  flag_y : Int
  text_x : Int
  text_y : Int
deriving DecidableEq

/-- `compute_layout(main_font)`: canvas dimensions and element positions,
computed from the bounding box of the label. -/
def compute_layout (main_font : FontMetrics) (label : List Char) : Layout :=
  let bbox := main_font label
  let text_w := bbox.x1 - bbox.x0
  let text_h := bbox.y1 - bbox.y0
  let total_w := FLAG_W + GAP + text_w + 40
  let total_h := max FLAG_H (text_h + 20) + 30
  let flag_x : Int := 20
  let flag_y := Int.fdiv (total_h - FLAG_H) 2
  let text_x := flag_x + FLAG_W + GAP
  let text_y := Int.fdiv (total_h - text_h) 2 - 10
  { width := total_w, height := total_h, flag_x := flag_x, flag_y := flag_y,
    text_x := text_x, text_y := text_y }

/-- One drawing command issued to the drawing surface: a filled rectangle
(`draw.rectangle`, with optional outline color and outline width) or a
single drawn character (`draw.text`). -/
inductive DrawOp where
  | rect (x0 y0 x1 y1 : Int) (fill : RGB) (outline : Option RGB) (w : Nat)
  | chr (x y : Int) (c : Char) (fill : RGB)
deriving DecidableEq

/-- The fill color of a drawing command. -/
def opFill : DrawOp → RGB
  | DrawOp.rect _ _ _ _ f _ _ => f
  | DrawOp.chr _ _ _ f => f

/-- Whether a drawing command draws a label character. -/
def isChr : DrawOp → Bool
  | DrawOp.rect _ _ _ _ _ _ _ => false
  | DrawOp.chr _ _ _ _ => true

/-- The color chosen for a skull-grid cell in `draw_flag`:
`GOLD_HI if shine_col >= 0 and abs(col - shine_col) <= 1 else GOLD`. -/
def cellColor (shine_col : Int) (col : Nat) : RGB :=
  if shine_col ≥ 0 ∧ ((col : Int) - shine_col).natAbs ≤ 1 then GOLD_HI else GOLD

/-- The skull-cell rectangles of `draw_flag`: both loops over
`range(SKULL_SIZE)`, skipping `None` cells, in row-major order. -/
def skullOps (fx fy : Int) (shine_col : Int) : List DrawOp :=
  let skull_ox := fx + Int.fdiv (FLAG_W - (SKULL_SIZE * SKULL_PX : Nat)) 2
  let skull_oy := fy + Int.fdiv (FLAG_H - (SKULL_SIZE * SKULL_PX : Nat)) 2
  (List.range SKULL_SIZE).flatMap (fun row =>
    (List.range SKULL_SIZE).filterMap (fun col =>
      if (SKULL_GRID.getD row []).getD col false then
        let px := skull_ox + (col : Int) * (SKULL_PX : Nat)
        let py := skull_oy + (row : Int) * (SKULL_PX : Nat)
        some (DrawOp.rect px py (px + (SKULL_PX : Nat) - 1) (py + (SKULL_PX : Nat) - 1)
          (cellColor shine_col col) none 1)
      else none))

/-- `draw_flag(draw, fx, fy, shine_col)`: the flag background rectangle
followed by the skull cells. -/
def draw_flag (fx fy : Int) (shine_col : Int) : List DrawOp :=
  DrawOp.rect fx fy (fx + FLAG_W - 1) (fy + FLAG_H - 1) FLAG_BG (some GOLD_DIM) 2
    :: skullOps fx fy shine_col

/-- The visual state passed to `render_frame` (its keyword arguments). -/
structure VisualState where
  visible_letters : Int
  glow_letter : Int
  show_flag : Bool
  flag_shine_col : Int
deriving DecidableEq

/-- The label-drawing loop of `render_frame`: enumerate the label with
index `i` and pen position `x`; `break` at the first `i >= visible_letters`;
each drawn character is `GOLD_HI` when `i == glow_letter`, else `PARCHMENT`;
the pen advances by the glyph width plus 2. -/
def drawText (font : FontMetrics) (text_y : Int) (visible glow : Int) :
    List Char → Nat → Int → List DrawOp
  | [], _, _ => []
  | c :: rest, i, x =>
    if (i : Int) ≥ visible then []
    else
      DrawOp.chr x text_y c (if (i : Int) = glow then GOLD_HI else PARCHMENT)
        :: drawText font text_y visible glow rest (i + 1)
            (x + ((font [c]).x1 - (font [c]).x0) + 2)

/-- A rendered frame: a fresh canvas of the layout's dimensions plus the
ordered drawing commands applied to it. -/
structure Frame where
  width : Int
  height : Int
  ops : List DrawOp
deriving DecidableEq

/-- `render_frame(layout, main_font, visible_letters, glow_letter,
show_flag, flag_shine_col)`: a fresh transparent canvas of the layout's
dimensions, the flag (when `show_flag`), then the visible label prefix. -/
def render_frame (layout : Layout) (main_font : FontMetrics) (label : List Char)
    (s : VisualState) : Frame :=
  { width := layout.width, height := layout.height,
    ops :=
      (if s.show_flag then draw_flag layout.flag_x layout.flag_y s.flag_shine_col else [])
        ++ drawText main_font layout.text_y s.visible_letters s.glow_letter label 0
            layout.text_x }

/-- Python `range(start, stop, step)` for a positive step. -/
def pyRange (start stop step : Nat) : List Nat :=
  (List.range ((stop - start + step - 1) / step)).map (fun k => start + step * k)

/-- Phase 1 of `generate_frames`: flag appears with shine sweep,
`for col in range(0, SKULL_SIZE, 2)`, each frame held 4 centiseconds. -/
def phase1 : List (VisualState × Nat) :=
  (pyRange 0 SKULL_SIZE 2).map (fun (col : Nat) =>
    (⟨0, -1, true, (col : Int)⟩, 4))

/-- Phase 2: flag settled, brief pause (15 centiseconds). -/
def phase2 : List (VisualState × Nat) :=
  [(⟨0, -1, true, -1⟩, 15)]

/-- Phase 3 (Typing): `for i in range(1, len(label) + 1)`, frame with
`visible_letters = i`, `glow_letter = i - 1`, held 10 centiseconds. -/
def phase3 (label : List Char) : List (VisualState × Nat) :=
  (List.range label.length).map (fun (k : Nat) =>
    (⟨(k : Int) + 1, (k : Int), true, -1⟩, 10))

/-- Phase 4: all settled, main hold (350 centiseconds). -/
def phase4 (label : List Char) : List (VisualState × Nat) :=
  [(⟨(label.length : Int), -1, true, -1⟩, 350)]

/-- Phase 5 (Sweep): gold pulse across the text,
`for i in range(len(label))`, held 5 centiseconds each. -/
def phase5 (label : List Char) : List (VisualState × Nat) :=
  (List.range label.length).map (fun (i : Nat) =>
    (⟨(label.length : Int), (i : Int), true, -1⟩, 5))

/-- Phase 6: shine sweeps the flag again, 4 centiseconds each. -/
def phase6 (label : List Char) : List (VisualState × Nat) :=
  (pyRange 0 SKULL_SIZE 2).map (fun (col : Nat) =>
    (⟨(label.length : Int), -1, true, (col : Int)⟩, 4))

/-- Phase 7: final hold before loop (250 centiseconds). -/
def phase7 (label : List Char) : List (VisualState × Nat) :=
  [(⟨(label.length : Int), -1, true, -1⟩, 250)]

/-- The declared timeline of `generate_frames`: the ordered visual states
with the per-frame durations `d_cs` (centiseconds) passed to `add`, in the
order the seven phases append them. -/
def timeline (label : List Char) : List (VisualState × Nat) :=
  phase1 ++ phase2 ++ phase3 label ++ phase4 label ++ phase5 label
    ++ phase6 label ++ phase7 label

/-- `generate_frames(layout, main_font)`: the parallel `frames` and
`durations` lists.  Each `add(f, d_cs)` appends the rendered frame and
`d_cs * 10` (the comment in the script reads: centiseconds → milliseconds). -/
def generate_frames (layout : Layout) (main_font : FontMetrics)
    (label : List Char) : List Frame × List Nat :=
  ((timeline label).map (fun e => render_frame layout main_font label e.1),
   (timeline label).map (fun e => e.2 * 10))

/-- The phases of the declared timeline as (step count, per-step duration
in centiseconds) pairs, as written in `generate_frames`. -/
def declaredPhases (label : List Char) : List (Nat × Nat) :=
  [((pyRange 0 SKULL_SIZE 2).length, 4), (1, 15), (label.length, 10),
   (1, 350), (label.length, 5), ((pyRange 0 SKULL_SIZE 2).length, 4), (1, 250)]

/-- Sum over all phases of stepCount × perStepDuration (centiseconds). -/
def phaseSum (label : List Char) : Nat :=
  ((declaredPhases label).map (fun p => p.1 * p.2)).sum

/-- Modelled from the spec: the `Settled` state of the Timeline Builder's
state progression — `visibleCount = N`, `highlighted = none` (`-1`), no
shine, flag shown.  Used to compare the spec's boundary description with
the sequence the code builds. -/
def SettledState (label : List Char) : VisualState :=
  ⟨(label.length : Int), -1, true, -1⟩

/-- Squared RGB distance, used to pick the nearest palette color. -/
def dist2 (a c : RGB) : Int :=
  ((a.r : Int) - c.r) ^ 2 + ((a.g : Int) - c.g) ^ 2 + ((a.b : Int) - c.b) ^ 2

/-- Scan of the color table keeping the index of the nearest color so far. -/
def nearestIndexAux (c : RGB) : List RGB → Nat → Nat → Int → Nat
  | [], _, best, _ => best
  | p :: ps, i, best, bestD =>
    if dist2 p c < bestD then nearestIndexAux c ps (i + 1) i (dist2 p c)
    else nearestIndexAux c ps (i + 1) best bestD

/-- Modelled from the spec: the external library's adaptive palette
conversion maps each opaque pixel "to its nearest table color"; this is
the index of the nearest color in the (at most 255-entry) color table. -/
def nearestIndex (palette : List RGB) (c : RGB) : Nat :=
  match palette with
  | [] => 0
  | p :: ps => nearestIndexAux c ps 1 0 (dist2 p c)

/-- The per-pixel palette conversion of `main`: the transparency mask sets
index 255 where `alpha <= 128` (`mask = alpha.point(lambda a: 255 if a <= 128
else 0)` then `p.paste(255, mask)`); any other pixel keeps the palette index
assigned by the adaptive conversion to at most 255 colors. -/
def quantizePixel (palette : List RGB) (rgb : RGB) (alpha : Nat) : Nat :=
  if alpha ≤ 128 then 255 else nearestIndex palette rgb

/-- A palette-mode image: dimensions plus a palette index per position. -/
structure PImage where
  width : Int
  height : Int
  idx : Int × Int → Nat

/-- `quantize(Frame) -> Palette Image`, per pixel of the rasterized frame.
`raster` is the external drawing library's rasterization of a frame: the
(RGB, alpha) pixel at each position. -/
def quantizeFrame (palette : List RGB) (raster : Frame → Int × Int → RGB × Nat)
    (f : Frame) : PImage :=
  { width := f.width, height := f.height,
    idx := fun pos => quantizePixel palette (raster f pos).1 (raster f pos).2 }

/-- The conversion loop of `main`: `p_frames = []` then
`for frame in frames: p_frames.append(...)`. -/
def convertLoop (palette : List RGB) (raster : Frame → Int × Int → RGB × Nat)
    (frames : List Frame) : List PImage :=
  frames.foldl (fun acc f => acc ++ [quantizeFrame palette raster f]) []

instance : Inhabited PImage := ⟨⟨0, 0, fun _ => 0⟩⟩

/-- The frame order written by the encoder:
`p_frames[0].save(..., append_images=p_frames[1:], ...)` writes the first
frame first, then the rest in order. -/
def encodeSequence (p_frames : List PImage) : List PImage :=
  p_frames.headI :: p_frames.tail

/-- Sample font metrics used to instantiate theorems with hypotheses. -/
def font0 : FontMetrics := fun _ => ⟨0, 0, 20, 90⟩

/-- Sample layout: the layout `main` computes for the sample font. -/
def layout0 : Layout := compute_layout font0 MAIN_TEXT.toList

lemma sum_map_const {α : Type} (l : List α) (c : Nat) :
    (l.map (fun _ => c)).sum = l.length * c := by
  induction l with
  | nil => simp
  | cons a t ih => simp [ih, Nat.succ_mul, Nat.add_comm]

lemma sum_map_scale {α : Type} (l : List α) (f : α → Nat) (k : Nat) :
    (l.map (fun a => f a * k)).sum = (l.map f).sum * k := by
  induction l with
  | nil => simp
  | cons a t ih => simp [ih, Nat.add_mul]

lemma durations_sum_eq (layout : Layout) (main_font : FontMetrics) (label : List Char) :
    ((generate_frames layout main_font label).2).sum = 10 * phaseSum label := by
  show ((timeline label).map (fun e => e.2 * 10)).sum = _
  have h := sum_map_scale (timeline label) (fun e => e.2) 10
  simp only [h]
  simp only [timeline, phaseSum, declaredPhases, phase1, phase2, phase3, phase4,
    phase5, phase6, phase7, List.map_append, List.sum_append, List.map_map,
    Function.comp_def, sum_map_const, List.length_map, List.length_range, List.map_cons,
    List.map_nil, List.sum_cons, List.sum_nil]
  ring

-- C4 infrastructure
lemma nearestIndexAux_lt (c : RGB) (n : Nat) :
    ∀ (ps : List RGB) (i best : Nat) (d : Int),
      best < n → i + ps.length ≤ n → nearestIndexAux c ps i best d < n := by
  intro ps
  induction ps with
  | nil => intro i best d hb _; simpa [nearestIndexAux] using hb
  | cons p t ih =>
    intro i best d hb hlen
    simp only [List.length_cons] at hlen
    simp only [nearestIndexAux]
    split
    · exact ih (i + 1) i (dist2 p c) (by omega) (by omega)
    · exact ih (i + 1) best d hb (by omega)

lemma nearestIndex_lt (palette : List RGB) (c : RGB) (h : palette ≠ []) :
    nearestIndex palette c < palette.length := by
  match palette with
  | [] => exact absurd rfl h
  | p :: ps =>
    simp only [nearestIndex, List.length_cons]
    exact nearestIndexAux_lt c (ps.length + 1) ps 1 0 (dist2 p c)
      (Nat.succ_pos _) (by omega)

-- C7 infrastructure
lemma foldl_append_eq_map {α β : Type} (g : α → β) :
    ∀ (l : List α) (acc : List β),
      l.foldl (fun a x => a ++ [g x]) acc = acc ++ l.map g := by
  intro l
  induction l with
  | nil => intro acc; simp
  | cons a t ih => intro acc; simp [ih]

lemma convertLoop_eq_map (palette : List RGB) (raster : Frame → Int × Int → RGB × Nat)
    (frames : List Frame) :
    convertLoop palette raster frames = frames.map (quantizeFrame palette raster) := by
  simpa [convertLoop] using foldl_append_eq_map (quantizeFrame palette raster) frames []

lemma timeline_ne_nil (label : List Char) : timeline label ≠ [] := by
  intro h
  have := congrArg List.length h
  simp [timeline, phase2, List.length_append] at this

-- C9 infrastructure
lemma drawText_high_visible (font : FontMetrics) (ty g : Int) :
    ∀ (cs : List Char) (i : Nat) (x : Int) (v1 v2 : Int),
      ((i + cs.length : Nat) : Int) ≤ v1 → ((i + cs.length : Nat) : Int) ≤ v2 →
      drawText font ty v1 g cs i x = drawText font ty v2 g cs i x := by
  intro cs
  induction cs with
  | nil => intro i x v1 v2 _ _; rfl
  | cons c t ih =>
    intro i x v1 v2 h1 h2
    simp only [List.length_cons] at h1 h2
    have hn1 : ¬ ((i : Int) ≥ v1) := by push_cast at h1 ⊢; omega
    have hn2 : ¬ ((i : Int) ≥ v2) := by push_cast at h2 ⊢; omega
    simp only [drawText, if_neg hn1, if_neg hn2]
    congr 1
    exact ih (i + 1) _ v1 v2 (by push_cast at h1 ⊢; omega) (by push_cast at h2 ⊢; omega)

lemma drawText_nonpos (font : FontMetrics) (ty g : Int) (v : Int) (hv : v ≤ 0)
    (cs : List Char) (x : Int) : drawText font ty v g cs 0 x = [] := by
  cases cs with
  | nil => rfl
  | cons c t =>
    simp only [drawText, Nat.cast_zero]
    rw [if_pos (by omega)]

lemma flag_ops_no_chr (fx fy sc : Int) :
    ∀ op ∈ draw_flag fx fy sc, isChr op = false := by
  intro op hop
  simp only [draw_flag, List.mem_cons] at hop
  rcases hop with h | h
  · subst h; rfl
  · simp only [skullOps, List.mem_flatMap, List.mem_filterMap] at h
    obtain ⟨row, -, col, -, hcell⟩ := h
    by_cases hc : (SKULL_GRID.getD row []).getD col false
    · rw [if_pos hc] at hcell
      injection hcell with hcell
      subst hcell
      rfl
    · rw [if_neg hc] at hcell
      cases hcell

-- C10 infrastructure
lemma drawText_no_glow (font : FontMetrics) (ty v : Int) :
    ∀ (cs : List Char) (i : Nat) (x : Int),
      ∀ op ∈ drawText font ty v (-1) cs i x, opFill op = PARCHMENT := by
  intro cs
  induction cs with
  | nil => intro i x op hop; cases hop
  | cons c t ih =>
    intro i x op hop
    simp only [drawText] at hop
    split at hop
    · cases hop
    · simp only [List.mem_cons] at hop
      rcases hop with h | h
      · subst h
        have : ¬ ((i : Int) = -1) := by omega
        simp [opFill, this]
      · exact ih (i + 1) _ op h

lemma flag_ops_fill_no_shine (fx fy : Int) :
    ∀ op ∈ draw_flag fx fy (-1), opFill op ≠ GOLD_HI := by
  intro op hop
  simp only [draw_flag, List.mem_cons] at hop
  rcases hop with h | h
  · subst h
    show FLAG_BG ≠ GOLD_HI
    decide
  · simp only [skullOps, List.mem_flatMap, List.mem_filterMap] at h
    obtain ⟨row, -, col, -, hcell⟩ := h
    by_cases hc : (SKULL_GRID.getD row []).getD col false
    · rw [if_pos hc] at hcell
      injection hcell with hcell
      subst hcell
      show cellColor (-1) col ≠ GOLD_HI
      have hcol : cellColor (-1) col = GOLD := by simp [cellColor]
      rw [hcol]
      decide
    · rw [if_neg hc] at hcell
      cases hcell

/-- Claim C1 (counterexample): in the run of `main` (label `"corsair"`), the sum of
the durations in the builder's output is 7920 (milliseconds), not the
792 centiseconds obtained as the sum over all phases of
stepCount × perStepDuration in hundredths of a second: `generate_frames`
itself multiplies every duration by 10 before storing it. -/
theorem durations_sum_ne_phase_sum :
    ((generate_frames layout0 font0 MAIN_TEXT.toList).2).sum ≠
      phaseSum MAIN_TEXT.toList := by decide

/-- Claim C1 (amended): the Timeline Builder converts centiseconds to
milliseconds itself (`durations.append(d_cs * 10)`), so for every run the
sum of the durations in the builder's output equals 10 times the sum over
all phases of stepCount × perStepDuration in hundredths of a second. -/
theorem durations_sum_eq_ten_mul_phase_sum (layout : Layout)
    (main_font : FontMetrics) (label : List Char) :
    ((generate_frames layout main_font label).2).sum = 10 * phaseSum label :=
  durations_sum_eq layout main_font label

/-- Claim C2: for the label `"corsair"` with per-letter delay 10 timing units,
the Typing phase (entries 10..16 of the declared timeline, which is
`phase3`) contributes exactly 7 frames with declared durations
[10,10,10,10,10,10,10] centiseconds, `visible_letters` strictly increasing
1..7, and `glow_letter` equal to `visible_letters - 1` in each. -/
theorem typing_phase_corsair :
    ((timeline MAIN_TEXT.toList).drop 10).take 7 = phase3 MAIN_TEXT.toList ∧
    (phase3 MAIN_TEXT.toList).length = 7 ∧
    (phase3 MAIN_TEXT.toList).map (fun e => e.2) = [10, 10, 10, 10, 10, 10, 10] ∧
    (phase3 MAIN_TEXT.toList).map (fun e => e.1.visible_letters) =
      [1, 2, 3, 4, 5, 6, 7] ∧
    ((phase3 MAIN_TEXT.toList).all fun e =>
      e.1.glow_letter == e.1.visible_letters - 1) = true := by decide

/-- Claim C3: for the 7-character label `"corsair"`, the Sweep phase (entries
18..24 of the declared timeline, which is `phase5`) contributes exactly 7
frames, `glow_letter` taking the values 0..6 in order, every one with
`visible_letters = 7`. -/
theorem sweep_phase_corsair :
    ((timeline MAIN_TEXT.toList).drop 18).take 7 = phase5 MAIN_TEXT.toList ∧
    (phase5 MAIN_TEXT.toList).length = 7 ∧
    (phase5 MAIN_TEXT.toList).map (fun e => e.1.glow_letter) =
      [0, 1, 2, 3, 4, 5, 6] ∧
    ((phase5 MAIN_TEXT.toList).all fun e => e.1.visible_letters == 7) = true := by
  decide

/-- Claim C4: in the palette conversion, every pixel with alpha ≤ 128 (in
particular alpha = 128) is mapped to the reserved transparent index 255,
and every pixel with alpha > 128 (in particular alpha = 129) is mapped to
an opaque index of the color table (an index below the table's length, in
particular distinct from the reserved index, the table holding at most 255
colors). -/
theorem alpha_threshold (palette : List RGB)
    (raster : Frame → Int × Int → RGB × Nat) (f : Frame) (pos : Int × Int)
    (hne : palette ≠ []) (hlen : palette.length ≤ 255) :
    ((raster f pos).2 ≤ 128 → (quantizeFrame palette raster f).idx pos = 255) ∧
    (128 < (raster f pos).2 →
      (quantizeFrame palette raster f).idx pos < palette.length ∧
      (quantizeFrame palette raster f).idx pos ≠ 255) := by
  constructor
  · intro h
    simp [quantizeFrame, quantizePixel, h]
  · intro h
    have hnot : ¬ ((raster f pos).2 ≤ 128) := by omega
    have hlt := nearestIndex_lt palette (raster f pos).1 hne
    refine ⟨?_, ?_⟩
    · simpa [quantizeFrame, quantizePixel, hnot] using hlt
    · simp only [quantizeFrame, quantizePixel, if_neg hnot]
      omega

/-- Witness for C4: with the one-color table [(0,0,0)], alpha 128 maps to
the reserved index 255 and alpha 129 maps to an opaque index ≠ 255. -/
theorem alpha_threshold_witness :
    (quantizeFrame [⟨0, 0, 0⟩] (fun _ _ => (⟨1, 2, 3⟩, 128)) ⟨0, 0, []⟩).idx
        (0, 0) = 255 ∧
    (quantizeFrame [⟨0, 0, 0⟩] (fun _ _ => (⟨1, 2, 3⟩, 129)) ⟨0, 0, []⟩).idx
        (0, 0) ≠ 255 :=
  ⟨(alpha_threshold [⟨0, 0, 0⟩] (fun _ _ => (⟨1, 2, 3⟩, 128)) ⟨0, 0, []⟩ (0, 0)
      (by decide) (by decide)).1 (by decide),
   ((alpha_threshold [⟨0, 0, 0⟩] (fun _ _ => (⟨1, 2, 3⟩, 129)) ⟨0, 0, []⟩ (0, 0)
      (by decide) (by decide)).2 (by decide)).2⟩

/-- Claim C5 (counterexample): with the empty label the generated sequence does
not begin at the Settled state — its first visual state is the first
flag-shine frame, with `flag_shine_col = 0`, not the Settled state (which
has no shine). -/
theorem empty_label_first_state_not_settled :
    ((timeline ([] : List Char)).map Prod.fst).head? =
        some ⟨0, -1, true, 0⟩ ∧
    (⟨0, -1, true, 0⟩ : VisualState) ≠ SettledState [] := by decide

/-- Claim C5 (amended): a label of length 0 produces zero Typing-phase frames,
and the sequence reaches the Settled state right after the prepended
flag-shine sweep (nine frames) — entry 9 of the timeline is the Settled
state (the settle pause); a label of length 1 produces exactly one Typing
frame (visible count 1, highlight 0) before transitioning onward. -/
theorem empty_label_skips_typing (label : List Char) :
    (label.length = 0 → phase3 label = [] ∧
      (timeline label)[9]? = some (SettledState label, 15)) ∧
    (label.length = 1 → phase3 label = [(⟨1, 0, true, -1⟩, 10)]) := by
  constructor
  · intro h
    have : label = [] := List.length_eq_zero.mp h
    subst this
    exact ⟨rfl, by decide⟩
  · intro h
    simp [phase3, h, List.range_succ]

/-- Witness for C5 (amended), at the empty label and a one-letter label. -/
theorem empty_label_skips_typing_witness :
    (phase3 ([] : List Char) = [] ∧
      (timeline ([] : List Char))[9]? = some (SettledState [], 15)) ∧
    phase3 ['a'] = [(⟨1, 0, true, -1⟩, 10)] :=
  ⟨(empty_label_skips_typing []).1 rfl, (empty_label_skips_typing ['a']).2 rfl⟩

/-- Claim C6: every frame produced for a run has width and height exactly the
width and height of the layout computed once at the start of that run:
`render_frame` allocates each canvas with `(layout["width"],
layout["height"])`. -/
theorem frame_dims_eq_layout (main_font : FontMetrics) (label : List Char)
    (f : Frame)
    (hf : f ∈ (generate_frames (compute_layout main_font label) main_font label).1) :
    f.width = (compute_layout main_font label).width ∧
    f.height = (compute_layout main_font label).height := by
  simp only [generate_frames, List.mem_map] at hf
  obtain ⟨e, -, rfl⟩ := hf
  exact ⟨rfl, rfl⟩

/-- Witness for C6: the first frame of the sample run has the layout's
dimensions. -/
theorem frame_dims_eq_layout_witness :
    (render_frame (compute_layout font0 MAIN_TEXT.toList) font0 MAIN_TEXT.toList
        ⟨0, -1, true, 0⟩).width = (compute_layout font0 MAIN_TEXT.toList).width ∧
    (render_frame (compute_layout font0 MAIN_TEXT.toList) font0 MAIN_TEXT.toList
        ⟨0, -1, true, 0⟩).height = (compute_layout font0 MAIN_TEXT.toList).height :=
  frame_dims_eq_layout font0 MAIN_TEXT.toList _
    (List.mem_map.mpr ⟨(⟨0, -1, true, 0⟩, 4), by decide, rfl⟩)

/-- Claim C7: the converter and encoder preserve frame order end-to-end — the
i-th converted palette image is the conversion of the i-th rendered frame,
the encoder writes the first frame first and the rest in order, and the
durations list has exactly one entry per frame. -/
theorem pipeline_preserves_order (layout : Layout) (main_font : FontMetrics)
    (label : List Char) (palette : List RGB)
    (raster : Frame → Int × Int → RGB × Nat) :
    (∀ i : Nat,
      (convertLoop palette raster (generate_frames layout main_font label).1)[i]? =
        ((generate_frames layout main_font label).1[i]?).map
          (quantizeFrame palette raster)) ∧
    encodeSequence (convertLoop palette raster (generate_frames layout main_font label).1) =
      convertLoop palette raster (generate_frames layout main_font label).1 ∧
    ((generate_frames layout main_font label).2).length =
      ((generate_frames layout main_font label).1).length := by
  refine ⟨?_, ?_, ?_⟩
  · intro i
    rw [convertLoop_eq_map]
    exact List.getElem?_map (quantizeFrame palette raster)
      ((generate_frames layout main_font label).1) i
  · have hne : (generate_frames layout main_font label).1 ≠ [] := by
      simp only [generate_frames]
      simp [List.map_eq_nil_iff, timeline_ne_nil label]
    rw [convertLoop_eq_map]
    rcases h : (generate_frames layout main_font label).1.map
        (quantizeFrame palette raster) with _ | ⟨p, ps⟩
    · exact absurd (List.map_eq_nil_iff.mp h) hne
    · simp [encodeSequence]
  · simp [generate_frames]

/-- Claim C8: the Frame Renderer is deterministic — two invocations with
field-wise equal visual states, the same layout, the same font metrics and
the same label produce identical frames (hence byte-identical bitmaps,
the drawing surface being determined by the canvas dimensions and the
ordered drawing commands). -/
theorem render_frame_deterministic (layout : Layout) (main_font : FontMetrics)
    (label : List Char) (s1 s2 : VisualState)
    (h1 : s1.visible_letters = s2.visible_letters)
    (h2 : s1.glow_letter = s2.glow_letter)
    (h3 : s1.show_flag = s2.show_flag)
    (h4 : s1.flag_shine_col = s2.flag_shine_col) :
    render_frame layout main_font label s1 = render_frame layout main_font label s2 := by
  cases s1
  cases s2
  cases h1
  cases h2
  cases h3
  cases h4
  rfl

/-- Witness for C8, at a concrete state of the sample run. -/
theorem render_frame_deterministic_witness :
    render_frame layout0 font0 MAIN_TEXT.toList ⟨3, 2, true, -1⟩ =
      render_frame layout0 font0 MAIN_TEXT.toList ⟨3, 2, true, -1⟩ :=
  render_frame_deterministic layout0 font0 MAIN_TEXT.toList _ _ rfl rfl rfl rfl

/-- Claim C9: `render_frame` is total in `visible_letters` — for every integer
value it returns a frame (the embedding accesses the label only through
the enumeration loop, so no out-of-range access exists); when
`visible_letters` is at least the label length the result equals the frame
for `visible_letters = label length` (all characters drawn); when it is at
most 0 no label character is drawn. -/
theorem render_frame_total_visible (layout : Layout) (main_font : FontMetrics)
    (label : List Char) (v g sc : Int) (sf : Bool) :
    ((label.length : Int) ≤ v →
      render_frame layout main_font label ⟨v, g, sf, sc⟩ =
        render_frame layout main_font label ⟨(label.length : Int), g, sf, sc⟩) ∧
    (v ≤ 0 →
      ((render_frame layout main_font label ⟨v, g, sf, sc⟩).ops.all fun op =>
        !(isChr op)) = true) := by
  constructor
  · intro hv
    simp only [render_frame, Frame.mk.injEq, List.append_cancel_left_eq, true_and]
    exact drawText_high_visible main_font layout.text_y g label 0 layout.text_x v
      (label.length : Int) (by simpa using hv) (by simp)
  · intro hv
    simp only [render_frame]
    rw [drawText_nonpos main_font layout.text_y g v hv label layout.text_x]
    simp only [List.append_nil, List.all_eq_true]
    intro op hop
    cases hsf : sf with
    | false => rw [hsf] at hop; cases hop
    | true =>
      rw [hsf] at hop
      simp only [if_true] at hop
      have := flag_ops_no_chr layout.flag_x layout.flag_y sc op hop
      simp [this]

/-- Witness for C9: in the sample run, `visible_letters = 10` renders the
same frame as `visible_letters = 7`, and `visible_letters = -1` draws no
label character. -/
theorem render_frame_total_visible_witness :
    render_frame layout0 font0 MAIN_TEXT.toList ⟨10, -1, true, -1⟩ =
      render_frame layout0 font0 MAIN_TEXT.toList
        ⟨(MAIN_TEXT.toList.length : Int), -1, true, -1⟩ ∧
    ((render_frame layout0 font0 MAIN_TEXT.toList ⟨-1, -1, true, -1⟩).ops.all
      fun op => !(isChr op)) = true :=
  ⟨(render_frame_total_visible layout0 font0 MAIN_TEXT.toList 10 (-1) (-1) true).1
      (by decide),
   (render_frame_total_visible layout0 font0 MAIN_TEXT.toList (-1) (-1) (-1) true).2
      (by decide)⟩

/-- Claim C10: the sentinel -1 disables highlighting — when `glow_letter = -1`
and `flag_shine_col = -1`, no drawing command of the frame fills with the
highlight color `GOLD_HI` (label characters are `PARCHMENT`, skull cells
`GOLD`, the flag field `FLAG_BG`); in particular column 0, at distance 1
from -1, is still drawn `GOLD`, the shine rule requiring
`shine_col >= 0`. -/
theorem sentinel_disables_highlight (layout : Layout) (main_font : FontMetrics)
    (label : List Char) (s : VisualState)
    (hg : s.glow_letter = -1) (hs : s.flag_shine_col = -1) :
    ((render_frame layout main_font label s).ops.all fun op =>
      !(opFill op == GOLD_HI)) = true ∧
    cellColor (-1) 0 = GOLD := by
  refine ⟨?_, by decide⟩
  simp only [render_frame, List.all_eq_true, List.mem_append]
  intro op hop
  have hne : opFill op ≠ GOLD_HI := by
    rcases hop with h | h
    · cases hsf : s.show_flag with
      | false => rw [hsf] at h; cases h
      | true =>
        rw [hsf] at h
        simp only [if_true] at h
        rw [hs] at h
        exact flag_ops_fill_no_shine layout.flag_x layout.flag_y op h
    · rw [hg] at h
      have := drawText_no_glow main_font layout.text_y s.visible_letters label 0
        layout.text_x op h
      rw [this]
      decide
  simpa using hne

/-- Witness for C10, at the settled state of the sample run. -/
theorem sentinel_disables_highlight_witness :
    ((render_frame layout0 font0 MAIN_TEXT.toList ⟨7, -1, true, -1⟩).ops.all
      fun op => !(opFill op == GOLD_HI)) = true ∧
    cellColor (-1) 0 = GOLD :=
  sentinel_disables_highlight layout0 font0 MAIN_TEXT.toList ⟨7, -1, true, -1⟩
    rfl rfl
